import Mathlib

/-!
Shallow embedding of the metadata cache manager of `src/lib/utils/info_cache.py`
(module `info_cache`): the on-disk record store, the in-memory recency index,
lookup-or-fetch, stale-artifact cleanup and retention/eviction.

File contents are modelled at the granularity the cache observes them: a file
either fails JSON parsing, parses to a non-object, or parses to a JSON object
whose string-valued fields are an association list.  Modification times are
naturals.  Python exceptions are modelled by the `PyErr` type and `Except`.
-/

namespace YtApp

/-- Modelled from the spec: `YoutubeIdKind` lives in `yt_lib.yt_ids`, which is
not under `src/`; the cache only ever uses the `VIDEO` kind. -/
inductive YoutubeIdKind
  | VIDEO
deriving DecidableEq, Repr

/-- Modelled from the spec: `YtdlpMetadata` (the spec's Record) lives in
`yt_lib.yt_ids`, which is not under `src/`.  The spec's declared field set is
id, canonical_reference, title, description; the code accesses these fields as
`video_id`, `url`, `title`, `description`. -/
structure YtdlpMetadata where
  video_id : String
  url : String
  title : String
  description : String
deriving DecidableEq, Repr

/-- Observable content of a cache file: invalid JSON, valid JSON that is not an
object, or a JSON object given as an association list of string fields. -/
inductive Content
  | notJson
  | jsonNonObj
  | jsonObj (raw : List (String × String))
deriving DecidableEq, Repr

/-- Python exceptions raised by the modelled code. -/
inductive PyErr
  | valueError (msg : String)
  | typeError (msg : String)
  | jsonDecodeError
  | osError
deriving DecidableEq, Repr

/-- One file of the cache directory: name, parsed content, mtime, and whether
reading it succeeds (a read of an unreadable file raises `OSError`). -/
structure FileEntry where
  name : String
  content : Content
  mtime : Nat
  readable : Bool
deriving DecidableEq, Repr

structure YouTubeSource where
  kind : YoutubeIdKind
  id : String
  url : String
  title : String
deriving DecidableEq, Repr

/-- `YouTubeSource.from_VideoMetadata`: builds the index summary from the
record's `video_id`, `url` and `title` fields. -/
def YouTubeSource.from_VideoMetadata (meta : YtdlpMetadata) : YouTubeSource :=
  YouTubeSource.mk YoutubeIdKind.VIDEO meta.video_id meta.url meta.title

/-- State of one `InfoManager`: the cache directory contents and the in-memory
index `yt_source_list` (list of `(mtime, YouTubeSource)`). -/
structure CacheState where
  fs : List FileEntry
  index : List (Nat × YouTubeSource)
deriving DecidableEq, Repr

/-- Python `str.startswith`, written on the character list so that it reduces
inside the kernel. -/
def strStartsWith (s pre : String) : Bool :=
  s.data.take pre.data.length == pre.data

/-- Python-style suffix test, written on the character list so that it reduces
inside the kernel. -/
def strEndsWith (s suf : String) : Bool :=
  s.data.drop (s.data.length - suf.data.length) == suf.data

/-- Truthiness of the value returned by the injected resolver
`extract_video_id : str -> str | None`: `None` and the empty string are falsy. -/
def pyFalsy : Option String → Bool
  | none => true
  | some s => s == ""


/-- Python value flowing into `remove_stale_files_for_video_id`'s `video_id`
parameter: `cache_VideoMetadata`'s walrus assignment can make it a `bool`. -/
inductive PyVal
  | bool (b : Bool)
  | str (s : String)
deriving DecidableEq, Repr

/-- Result of Python f-string interpolation of a `PyVal`. -/
def PyVal.format : PyVal → String
  | PyVal.bool true => "True"
  | PyVal.bool false => "False"
  | PyVal.str s => s

/-- Python equality of a `PyVal` against a string (`str == bool` is `False`). -/
def PyVal.eqStr : PyVal → String → Bool
  | PyVal.str s, t => s == t
  | PyVal.bool _, _ => false

/-- `info_path_for`: `<cache_dir>/<video_id>.info`, modelled as the file name. -/
def info_path_for (video_id : String) : String := video_id ++ ".info"

/-- First file of the directory with the given name. -/
def lookupFile (fs : List FileEntry) (name : String) : Option FileEntry :=
  fs.find? (fun f => f.name == name)

/-- Content of the file with the given name, if present. -/
def fileContentAt (fs : List FileEntry) (name : String) : Option Content :=
  (lookupFile fs name).map FileEntry.content

/-- Net effect of writing `c` to `name` at time `now`: replace the existing
entry or append a fresh readable one. -/
def writeFile (fs : List FileEntry) (name : String) (c : Content) (now : Nat) :
    List FileEntry :=
  if (fs.find? (fun f => f.name == name)).isSome then
    fs.map (fun f => if f.name == name then FileEntry.mk name c now f.readable else f)
  else
    fs ++ [FileEntry.mk name c now true]

/-- `Path.touch()`: update the mtime of the named file, content untouched. -/
def touchFile (fs : List FileEntry) (name : String) (now : Nat) : List FileEntry :=
  fs.map (fun f => if f.name == name then FileEntry.mk f.name f.content now f.readable else f)

/-- Field list produced by `asdict(meta)`, in dataclass field order. -/
def recordFields (meta : YtdlpMetadata) : List (String × String) :=
  [("video_id", meta.video_id), ("url", meta.url),
   ("title", meta.title), ("description", meta.description)]

/-- `_video_metadata_to_json`: `json.dumps(asdict(meta))`, one field per
dataclass field. -/
def _video_metadata_to_json (meta : YtdlpMetadata) : Content :=
  Content.jsonObj (recordFields meta)

/-- Declared field names of `YtdlpMetadata` (`{f.name for f in fields(...)}`). -/
def allowedFields : List String := ["video_id", "url", "title", "description"]

/-- `_video_metadata_from_json`: `json.loads` then filter to the declared
fields and construct the dataclass; invalid JSON raises `JSONDecodeError`, a
non-object raises `ValueError`, a missing required field raises `TypeError`. -/
def _video_metadata_from_json (text : Content) : Except PyErr YtdlpMetadata :=
  match text with
  | Content.notJson => Except.error PyErr.jsonDecodeError
  | Content.jsonNonObj =>
      Except.error (PyErr.valueError "Expected JSON object for VideoMetadata.")
  | Content.jsonObj raw =>
      let filtered := raw.filter (fun kv => allowedFields.contains kv.1)
      match filtered.lookup "video_id", filtered.lookup "url",
            filtered.lookup "title", filtered.lookup "description" with
      | some v, some u, some t, some d => Except.ok (YtdlpMetadata.mk v u t d)
      | _, _, _, _ => Except.error (PyErr.typeError "missing required VideoMetadata field")

/-- `remove_stale_files_for_video_id`: delete every file whose name starts
with `f"{video_id}."` except `keep`, then drop every index entry whose id
equals `video_id` (Python `!=`, so a `bool` `video_id` never equals a str). -/
def remove_stale_files_for_video_id (st : CacheState) (video_id : PyVal)
    (keep : Option String) : CacheState :=
  let pre := video_id.format ++ "."
  let keepMatch := fun (f : FileEntry) =>
    match keep with
    | some k => f.name == k
    | none => false
  let fs' := st.fs.filter (fun f => !(strStartsWith f.name pre) || keepMatch f)
  let index' := st.index.filter (fun e => !(video_id.eqStr e.2.id))
  CacheState.mk fs' index'

/-- Stable insertion into a list sorted by mtime descending (ties keep the
inserted element first, matching Python's stable `sort(reverse=True)`). -/
def insertByMtime (x : Nat × YouTubeSource) :
    List (Nat × YouTubeSource) → List (Nat × YouTubeSource)
  | [] => [x]
  | y :: ys => if y.1 ≤ x.1 then x :: y :: ys else y :: insertByMtime x ys

/-- `list.sort(key=lambda t: t[0], reverse=True)`: stable sort by mtime,
newest first. -/
def sortByMtimeDesc (l : List (Nat × YouTubeSource)) : List (Nat × YouTubeSource) :=
  l.foldr insertByMtime []

/-- Directory scan of `refresh_index`: for each `*.info` file, read and parse
it; an `OSError` (unreadable file) is caught and the entry skipped, but a
parse failure (`ValueError`/`JSONDecodeError`/`TypeError`) propagates. -/
def scanEntries : List FileEntry → Except PyErr (List (Nat × YouTubeSource))
  | [] => Except.ok []
  | f :: rest =>
      if strEndsWith f.name ".info" then
        if f.readable then
          match _video_metadata_from_json f.content with
          | Except.error e => Except.error e
          | Except.ok meta =>
              match scanEntries rest with
              | Except.error e => Except.error e
              | Except.ok es =>
                  Except.ok ((f.mtime, YouTubeSource.from_VideoMetadata meta) :: es)
        else scanEntries rest
      else scanEntries rest

/-- `refresh_index`: rebuild the in-memory index from disk, newest first.
The assignment to `yt_source_list` happens only if the scan raised nothing. -/
def refresh_index (st : CacheState) : Except PyErr CacheState :=
  match scanEntries st.fs with
  | Except.error e => Except.error e
  | Except.ok es => Except.ok (CacheState.mk st.fs (sortByMtimeDesc es))

/-- `_prepend_to_index`: stat the id's `.info` file (falling back to a full
`refresh_index` on `OSError`), drop any index entry for the same id, prepend
the new entry and re-sort by mtime descending. -/
def _prepend_to_index (st : CacheState) (src : YouTubeSource) :
    Except PyErr CacheState :=
  match lookupFile st.fs (info_path_for src.id) with
  | none => refresh_index st
  | some f =>
      let dropped := st.index.filter (fun e => !(e.2.id == src.id))
      Except.ok (CacheState.mk st.fs (sortByMtimeDesc ((f.mtime, src) :: dropped)))

/-- Tail of `cache_VideoMetadata` after the id check: purge stale artifacts
(with whatever Python value ended up in `video_id`), write the record file
atomically, and prepend the new entry to the index. -/
def cache_finish (now : Nat) (st : CacheState) (video_id : PyVal)
    (meta' : YtdlpMetadata) (vid' : String) :
    Except PyErr (CacheState × YtdlpMetadata) :=
  let info_file := info_path_for vid'
  let st1 := remove_stale_files_for_video_id st video_id (some info_file)
  let st2 := CacheState.mk
    (writeFile st1.fs info_file (_video_metadata_to_json meta') now) st1.index
  match _prepend_to_index st2 (YouTubeSource.from_VideoMetadata meta') with
  | Except.error e => Except.error e
  | Except.ok st3 => Except.ok (st3, meta')

/-- `cache_VideoMetadata`: the walrus `if video_id := extract_video_id(vid) != vid:`
binds `video_id` to the *boolean* comparison result; only when the branch is
taken is it rebound to the id extracted from `meta.url`.  That `video_id` is
then what is passed to `remove_stale_files_for_video_id`.  Returns the new
state and the (possibly mutated) record. -/
def cache_VideoMetadata (E : String → Option String) (now : Nat)
    (st : CacheState) (meta : YtdlpMetadata) :
    Except PyErr (CacheState × YtdlpMetadata) :=
  if E meta.video_id = some meta.video_id then
    cache_finish now st (PyVal.bool false) meta meta.video_id
  else
    if pyFalsy (E meta.url) then
      Except.error (PyErr.valueError "Could not extract video_id")
    else
      cache_finish now st (PyVal.str ((E meta.url).getD ""))
        (YtdlpMetadata.mk ((E meta.url).getD "") meta.url meta.title
          meta.description)
        ((E meta.url).getD "")

/-- `crop_cache`: raise on a negative count, sort the index newest first, keep
the first `num_entries` entries, and delete all artifacts of every stale entry
(index mutations made by the per-entry cleanup are overwritten by the final
assignment `self.yt_source_list = keep`). -/
def crop_cache (st : CacheState) (num_entries : Int) : Except PyErr CacheState :=
  if num_entries < 0 then
    Except.error (PyErr.valueError "num_entries must be >= 0")
  else
    let sorted := sortByMtimeDesc st.index
    let n := num_entries.toNat
    let stale := sorted.drop n
    let keep := sorted.take n
    let looped := stale.foldl
      (fun s e => remove_stale_files_for_video_id s (PyVal.str e.2.id) none)
      (CacheState.mk st.fs sorted)
    Except.ok (CacheState.mk looped.fs keep)

/-- Outcome of the index-scan loop of `get_video_metadata`: either a cache hit
returned to the caller, or a fall-through (loop exhausted or `break`) into
fresh fetching, carrying the state as mutated so far. -/
inductive LoopOut
  | hit (meta : YtdlpMetadata) (st : CacheState)
  | fallThrough (st : CacheState)
deriving Repr

/-- Body of a successful index match inside `get_video_metadata`'s loop:
touch the file, rebuild the index and re-read the record, any exception in
that block being caught, logged and turned into a `break` (fall through to
fetching). -/
def hitStep (now : Nat) (vid : String) (st : CacheState) (f : FileEntry) : LoopOut :=
  let st1 := CacheState.mk (touchFile st.fs (info_path_for vid) now) st.index
  match refresh_index st1 with
  | Except.error _ => LoopOut.fallThrough st1
  | Except.ok st2 =>
      if f.readable then
        match _video_metadata_from_json f.content with
        | Except.ok meta => LoopOut.hit meta st2
        | Except.error _ => LoopOut.fallThrough st2
      else LoopOut.fallThrough st2

/-- Index-scan loop of `get_video_metadata`: find an entry with the resolved
id; if its file is gone keep scanning; otherwise run `hitStep` on it. -/
def hitLoop (now : Nat) (vid : String) (st : CacheState) :
    List (Nat × YouTubeSource) → LoopOut
  | [] => LoopOut.fallThrough st
  | e :: rest =>
      if e.2.id == vid then
        match lookupFile st.fs (info_path_for e.2.id) with
        | none => hitLoop now vid st rest
        | some f => hitStep now e.2.id st f
      else hitLoop now vid st rest

/-- `_fetch_yt_dlp_metadata`: call the external provider (modelled as the
injected function `provider`), then cache the obtained record; returns the
result, the final state, and the number of provider invocations. -/
def _fetch_yt_dlp_metadata (E : String → Option String)
    (provider : String → Except PyErr YtdlpMetadata) (now : Nat)
    (st : CacheState) (url : String) :
    Except PyErr YtdlpMetadata × CacheState × Nat :=
  match provider url with
  | Except.error e => (Except.error e, st, 1)
  | Except.ok meta =>
      match cache_VideoMetadata E now st meta with
      | Except.error e => (Except.error e, st, 1)
      | Except.ok (st', meta') => (Except.ok meta', st', 1)

/-- `get_video_metadata`: resolve the url to an id (raising `ValueError` when
none can be derived), scan the index for a usable hit, otherwise fetch fresh
metadata.  Returns the result, the final state, and the number of provider
invocations. -/
def get_video_metadata (E : String → Option String)
    (provider : String → Except PyErr YtdlpMetadata) (now : Nat)
    (st : CacheState) (url : String) :
    Except PyErr YtdlpMetadata × CacheState × Nat :=
  let r := E url
  if pyFalsy r then
    (Except.error (PyErr.valueError "URL does not contain a Video Id."), st, 0)
  else
    let vid := r.getD ""
    match hitLoop now vid st st.index with
    | LoopOut.hit meta st2 => (Except.ok meta, st2, 0)
    | LoopOut.fallThrough st2 => _fetch_yt_dlp_metadata E provider now st2 url

/-- `os.replace`-style rename: move the file at `src` onto `dst`. -/
def renameReplace (fs : List FileEntry) (src dst : String) : List FileEntry :=
  match lookupFile fs src with
  | none => fs
  | some f => writeFile (fs.filter (fun g => !(g.name == src))) dst f.content f.mtime

/-- Crash states of `_atomic_write_text`: after `mkdir`, after creating the
empty temp file, mid-write (the temp file holding arbitrary junk `midC`),
after the full write+flush, and after the atomic `replace` onto `path`. -/
def atomicWriteStates (fs : List FileEntry) (path tmpName : String)
    (text midC : Content) (now : Nat) : List (List FileEntry) :=
  let s1 := fs
  let s2 := writeFile s1 tmpName Content.notJson now
  let s3 := writeFile s2 tmpName midC now
  let s4 := writeFile s3 tmpName text now
  let s5 := renameReplace s4 tmpName path
  [s1, s2, s3, s4, s5]

/-! Concrete fixtures used by the example-level theorems and witnesses. -/

/-- Concrete resolver: maps each of the ids v1, A, B, C and each of the urls
u1, uA, uB, uC to its id, everything else to `none` (ids are canonical). -/
def exResolver : String → Option String := fun s =>
  if s == "v1" || s == "u1" then some "v1" else
  if s == "A" || s == "uA" then some "A" else
  if s == "B" || s == "uB" then some "B" else
  if s == "C" || s == "uC" then some "C" else none

def metaV1old : YtdlpMetadata := YtdlpMetadata.mk "v1" "u1" "old" "d"

def metaV1new : YtdlpMetadata := YtdlpMetadata.mk "v1" "u1" "new" "d"

def metaV1fresh : YtdlpMetadata := YtdlpMetadata.mk "v1" "u1" "fresh" "d"

def metaA : YtdlpMetadata := YtdlpMetadata.mk "A" "uA" "tA" "dA"

def metaB : YtdlpMetadata := YtdlpMetadata.mk "B" "uB" "tB" "dB"

def metaC : YtdlpMetadata := YtdlpMetadata.mk "C" "uC" "tC" "dC"

def srcOf (m : YtdlpMetadata) : YouTubeSource := YouTubeSource.from_VideoMetadata m

/-- Cache with both `v1.info` and a stale `v1.legacy` present. -/
def stateLegacy : CacheState := CacheState.mk
  [FileEntry.mk "v1.info" (_video_metadata_to_json metaV1old) 1 true,
   FileEntry.mk "v1.legacy" Content.notJson 1 true]
  [(1, srcOf metaV1old)]

/-- Cache whose only record file `v1.info` holds invalid JSON, with a live
index entry for v1. -/
def stateCorrupt : CacheState := CacheState.mk
  [FileEntry.mk "v1.info" Content.notJson 1 true]
  [(1, srcOf metaV1old)]

/-- Cache with one well-formed record file and one malformed one. -/
def stateMixed : CacheState := CacheState.mk
  [FileEntry.mk "A.info" (_video_metadata_to_json metaA) 1 true,
   FileEntry.mk "bad.info" Content.notJson 2 true]
  []

/-- Provider that never succeeds; used where the provider must not be hit. -/
def noProvider : String → Except PyErr YtdlpMetadata :=
  fun _ => Except.error PyErr.osError

/-- C1 (code bug).  The spec and the function's own docstring say that storing
a fresh record for id v1 purges the stale artifacts `v1.*` (keeping the target
`.info` file), so `v1.legacy` should be gone afterwards.  In the code the
walrus `if video_id := extract_video_id(vid) != vid:` binds `video_id` to the
boolean `False` whenever `meta.video_id` is already canonical, and that
boolean is what is passed to `remove_stale_files_for_video_id`, which then
purges the prefix `"False."`: `v1.legacy` survives while `v1.info` does get
the new content. -/
theorem cache_VideoMetadata_misses_stale_legacy_C1 :
    (cache_VideoMetadata exResolver 5 stateLegacy metaV1new).map
      (fun p => (fileContentAt p.1.fs "v1.legacy", fileContentAt p.1.fs "v1.info"))
    = Except.ok (some Content.notJson, some (_video_metadata_to_json metaV1new)) := rfl

/-- C2 (counterexample).  Looking up a reference whose record file on disk is
invalid JSON does not raise any error: the parse failure is caught inside
`get_video_metadata`, the code falls back to the provider (one invocation),
and the provider's fresh record is returned — other content is silently
substituted for the corrupt record. -/
theorem corrupt_lookup_returns_fresh_C2_cex :
    ((get_video_metadata exResolver (fun _ => Except.ok metaV1fresh) 5
        stateCorrupt "u1").1,
     (get_video_metadata exResolver (fun _ => Except.ok metaV1fresh) 5
        stateCorrupt "u1").2.2)
    = (Except.ok metaV1fresh, 1) := rfl

/-- C3 (counterexample).  A single malformed record file makes the whole
directory scan of `refresh_index` fail: only `OSError` is caught by the scan
loop, so the `JSONDecodeError` raised while parsing `bad.info` propagates even
though the readable, well-formed `A.info` is also present. -/
theorem refresh_index_fails_on_malformed_C3_cex :
    refresh_index stateMixed = Except.error PyErr.jsonDecodeError := rfl

/-- C5 (confirmed).  Storing records for ids A, B, C in that order at strictly
increasing times 1, 2, 3 and then looking up A at time 4 yields the index
order [A, C, B] (most recent first): the hit touches A's file, rebuilds the
index sorted by recency descending, and returns A's stored record without
invoking the provider. -/
theorem recency_ordering_C5 :
    ((cache_VideoMetadata exResolver 1 (CacheState.mk [] []) metaA).bind (fun p1 =>
     (cache_VideoMetadata exResolver 2 p1.1 metaB).bind (fun p2 =>
     (cache_VideoMetadata exResolver 3 p2.1 metaC).map (fun p3 =>
       let r := get_video_metadata exResolver noProvider 4 p3.1 "uA"
       (r.2.1.index.map (fun e => e.2.id), r.1, r.2.2)))))
    = Except.ok (["A", "C", "B"], Except.ok metaA, 0) := rfl

/-! Helper lemmas about the sort, the directory and the scan. -/

theorem mem_insertByMtime {x a : Nat × YouTubeSource}
    {l : List (Nat × YouTubeSource)} :
    a ∈ insertByMtime x l ↔ a = x ∨ a ∈ l := by
  induction l with
  | nil => simp [insertByMtime]
  | cons y ys ih =>
      by_cases h : y.1 ≤ x.1
      · simp [insertByMtime, h]
      · simp [insertByMtime, h, ih]
        tauto

theorem mem_sortByMtimeDesc {a : Nat × YouTubeSource}
    {l : List (Nat × YouTubeSource)} :
    a ∈ sortByMtimeDesc l ↔ a ∈ l := by
  induction l with
  | nil => simp [sortByMtimeDesc]
  | cons y ys ih =>
      show a ∈ insertByMtime y (sortByMtimeDesc ys) ↔ _
      rw [mem_insertByMtime]
      simp [ih]

theorem pairwise_insertByMtime {x : Nat × YouTubeSource}
    {l : List (Nat × YouTubeSource)}
    (h : l.Pairwise (fun a b => b.1 ≤ a.1)) :
    (insertByMtime x l).Pairwise (fun a b => b.1 ≤ a.1) := by
  induction l with
  | nil => simp [insertByMtime]
  | cons y ys ih =>
      rw [List.pairwise_cons] at h
      by_cases hle : y.1 ≤ x.1
      · rw [insertByMtime, if_pos hle, List.pairwise_cons, List.pairwise_cons]
        refine ⟨?_, h.1, h.2⟩
        intro b hb
        rcases List.mem_cons.mp hb with hb | hb
        · exact hb ▸ hle
        · exact le_trans (h.1 b hb) hle
      · rw [insertByMtime, if_neg hle, List.pairwise_cons]
        refine ⟨?_, ih h.2⟩
        intro b hb
        rcases mem_insertByMtime.mp hb with hb | hb
        · exact hb ▸ le_of_not_le hle
        · exact h.1 b hb

theorem pairwise_sortByMtimeDesc (l : List (Nat × YouTubeSource)) :
    (sortByMtimeDesc l).Pairwise (fun a b => b.1 ≤ a.1) := by
  induction l with
  | nil => exact List.Pairwise.nil
  | cons y ys ih => exact pairwise_insertByMtime ih

theorem sortByMtimeDesc_eq_self {l : List (Nat × YouTubeSource)}
    (h : l.Pairwise (fun a b => b.1 ≤ a.1)) : sortByMtimeDesc l = l := by
  induction l with
  | nil => rfl
  | cons a t ih =>
      rw [List.pairwise_cons] at h
      show insertByMtime a (sortByMtimeDesc t) = a :: t
      rw [ih h.2]
      cases t with
      | nil => rfl
      | cons b t' =>
          rw [insertByMtime, if_pos (h.1 b (List.mem_cons_self b t'))]

theorem find?_filter_of_imp {p q : FileEntry → Bool} {l : List FileEntry}
    (h : ∀ x, p x = true → q x = true) :
    (l.filter q).find? p = l.find? p := by
  induction l with
  | nil => rfl
  | cons a t ih =>
      by_cases hp : p a = true
      · rw [List.filter_cons, if_pos (h a hp), List.find?_cons_of_pos _ hp,
          List.find?_cons_of_pos _ hp]
      · by_cases hq : q a = true
        · rw [List.filter_cons, if_pos hq, List.find?_cons_of_neg _ hp,
            List.find?_cons_of_neg _ hp, ih]
        · rw [List.filter_cons, if_neg hq, ih, List.find?_cons_of_neg _ hp]

theorem find?_name_map_rename {g : FileEntry → FileEntry} {n : String}
    (hg : ∀ f, (g f).name = n → f.name = n) (hg2 : ∀ f, f.name = n → g f = f)
    (l : List FileEntry) :
    (l.map g).find? (fun f => f.name == n) = l.find? (fun f => f.name == n) := by
  induction l with
  | nil => rfl
  | cons a t ih =>
      by_cases h : a.name = n
      · rw [List.map_cons, hg2 a h,
          List.find?_cons_of_pos _ (by simpa using h),
          List.find?_cons_of_pos _ (by simpa using h)]
      · have hga : ((g a).name == n) = false := by
          cases hh : (g a).name == n with
          | false => rfl
          | true => exact absurd (hg a (by simpa using hh)) h
        rw [List.map_cons, List.find?_cons_of_neg _ (by simp [hga]), ih,
          List.find?_cons_of_neg _ (by simpa using h)]

theorem fileContentAt_writeFile_ne {fs : List FileEntry} {name m : String}
    {c : Content} {now : Nat} (h : name ≠ m) :
    fileContentAt (writeFile fs m c now) name = fileContentAt fs name := by
  unfold fileContentAt lookupFile writeFile
  by_cases he : (fs.find? (fun f => f.name == m)).isSome
  · rw [if_pos he, find?_name_map_rename]
    · intro f hf
      by_cases hm : f.name = m
      · simp [hm] at hf
        exact absurd hf.symm h
      · simpa [hm] using hf
    · intro f hf
      by_cases hm : f.name = m
      · rw [hm] at hf
        exact absurd hf.symm h
      · simp [hm]
  · rw [if_neg he, List.find?_append]
    have : ((FileEntry.mk m c now true).name == name) = false := by
      simpa using fun hh => h hh.symm
    simp [this]

theorem fileContentAt_writeFile_self {fs : List FileEntry} {m : String}
    {c : Content} {now : Nat} :
    fileContentAt (writeFile fs m c now) m = some c := by
  unfold fileContentAt lookupFile writeFile
  by_cases he : (fs.find? (fun f => f.name == m)).isSome
  · rw [if_pos he]
    rcases Option.isSome_iff_exists.mp he with ⟨f0, hf0⟩
    have hname : f0.name = m := by
      have := List.find?_some hf0
      simpa using this
    rw [List.find?_map]
    have hcomp : ((fun (f : FileEntry) => f.name == m) ∘
        (fun f => if f.name == m then FileEntry.mk m c now f.readable else f))
        = (fun (f : FileEntry) => f.name == m) := by
      funext f
      by_cases hm : f.name = m <;> simp [hm]
    rw [hcomp, hf0]
    simp [hname]
  · rw [if_neg he, List.find?_append]
    have hnone : fs.find? (fun f => f.name == m) = none := by
      cases hh : fs.find? (fun f => f.name == m) with
      | none => rfl
      | some v => rw [hh] at he; simp at he
    simp [hnone]

/-- Cache holding records for A (newest), B, C, index sorted newest first. -/
def stateABC : CacheState := CacheState.mk
  [FileEntry.mk "A.info" (_video_metadata_to_json metaA) 3 true,
   FileEntry.mk "B.info" (_video_metadata_to_json metaB) 2 true,
   FileEntry.mk "C.info" (_video_metadata_to_json metaC) 1 true]
  [(3, srcOf metaA), (2, srcOf metaB), (1, srcOf metaC)]

/-- `stateABC` after `crop_cache 1`: only A's artifacts and index entry. -/
def stateA : CacheState := CacheState.mk
  [FileEntry.mk "A.info" (_video_metadata_to_json metaA) 3 true]
  [(3, srcOf metaA)]

/-- C8 (confirmed).  Eviction is idempotent: whenever `crop_cache` succeeds
(the retain count was non-negative), running it again with the same count on
the resulting state returns that state unchanged — no error, no file deleted,
no index change.  In particular, on the index [A, B, C] the first `evict(1)`
yields exactly [A] with A's file intact, and the general part applies to that
result. -/
theorem idempotent_eviction_C8 :
    (∀ (st st' : CacheState) (n : Int),
        crop_cache st n = Except.ok st' → crop_cache st' n = Except.ok st')
    ∧ crop_cache stateABC 1 = Except.ok stateA := by
  constructor
  · intro st st' n h
    by_cases hn : n < 0
    · simp [crop_cache, hn] at h
    · simp only [crop_cache, if_neg hn, Except.ok.injEq] at h
      subst h
      simp only [crop_cache, if_neg hn, Except.ok.injEq]
      have hsort : sortByMtimeDesc ((sortByMtimeDesc st.index).take n.toNat)
          = (sortByMtimeDesc st.index).take n.toNat :=
        sortByMtimeDesc_eq_self
          (List.Pairwise.sublist (List.take_sublist n.toNat (sortByMtimeDesc st.index))
            (pairwise_sortByMtimeDesc st.index))
      rw [hsort]
      have hdrop : ((sortByMtimeDesc st.index).take n.toNat).drop n.toNat = [] := by
        refine List.drop_eq_nil_of_le ?_
        rw [List.length_take]
        exact min_le_left _ _
      rw [hdrop]
      have htake : ((sortByMtimeDesc st.index).take n.toNat).take n.toNat
          = (sortByMtimeDesc st.index).take n.toNat := by
        rw [List.take_take, min_self]
      rw [List.foldl_nil, htake]
  · rfl

/-- Closed instance of the general half of `idempotent_eviction_C8`: a second
`evict(1)` on the already-cropped state `stateA` is a no-op. -/
theorem idempotent_eviction_C8_witness :
    crop_cache stateA 1 = Except.ok stateA :=
  idempotent_eviction_C8.1 stateABC stateA 1 rfl

/-- C9 (confirmed).  A lookup whose reference cannot be resolved to an id
(the resolver returns `None` or an empty string) raises `ValueError` — the
spec's `InvalidReference` — before touching anything: the returned state is
exactly the input state and the provider is invoked zero times. -/
theorem invalid_reference_no_mutation_C9
    (E : String → Option String) (provider : String → Except PyErr YtdlpMetadata)
    (now : Nat) (st : CacheState) (url : String)
    (h : pyFalsy (E url) = true) :
    get_video_metadata E provider now st url
      = (Except.error (PyErr.valueError "URL does not contain a Video Id."), st, 0) := by
  simp [get_video_metadata, h]

/-- Closed instance of `invalid_reference_no_mutation_C9` at a resolver that
derives no id. -/
theorem invalid_reference_no_mutation_C9_witness :
    get_video_metadata (fun _ => none) noProvider 0 stateLegacy "nonsense"
      = (Except.error (PyErr.valueError "URL does not contain a Video Id."),
         stateLegacy, 0) :=
  invalid_reference_no_mutation_C9 (fun _ => none) noProvider 0 stateLegacy
    "nonsense" rfl

/-- C10 (confirmed).  `remove_stale_files_for_video_id` with `keep` set to the
id's own `.info` path leaves that record file untouched on disk but still
removes every index entry for the id: right afterwards a readable record file
exists while the index has no entry for the id (until the caller re-inserts
one, as `cache_VideoMetadata` does). -/
theorem remove_stale_purges_index_keeps_file_C10
    (st : CacheState) (vid : String) (f : FileEntry)
    (h : lookupFile st.fs (info_path_for vid) = some f) :
    lookupFile (remove_stale_files_for_video_id st (PyVal.str vid)
        (some (info_path_for vid))).fs (info_path_for vid) = some f
    ∧ ∀ e ∈ (remove_stale_files_for_video_id st (PyVal.str vid)
        (some (info_path_for vid))).index, e.2.id ≠ vid := by
  constructor
  · show (st.fs.filter _).find? (fun g => g.name == info_path_for vid) = some f
    rw [find?_filter_of_imp]
    · exact h
    · intro x hx
      rw [Bool.or_eq_true]
      right
      exact hx
  · intro e he
    have hm := (List.mem_filter.mp he).2
    simp only [PyVal.eqStr, Bool.not_eq_true'] at hm
    intro hc
    rw [hc] at hm
    simp at hm

/-- Closed instance of `remove_stale_purges_index_keeps_file_C10` on the
legacy fixture: `v1.info` survives, the index entry for v1 is gone. -/
theorem remove_stale_purges_index_keeps_file_C10_witness :
    lookupFile (remove_stale_files_for_video_id stateLegacy (PyVal.str "v1")
        (some (info_path_for "v1"))).fs (info_path_for "v1")
      = some (FileEntry.mk "v1.info" (_video_metadata_to_json metaV1old) 1 true)
    ∧ ∀ e ∈ (remove_stale_files_for_video_id stateLegacy (PyVal.str "v1")
        (some (info_path_for "v1"))).index, e.2.id ≠ "v1" :=
  remove_stale_purges_index_keeps_file_C10 stateLegacy "v1"
    (FileEntry.mk "v1.info" (_video_metadata_to_json metaV1old) 1 true) rfl

/-- C6 (confirmed).  Read after write round-trips: deserializing the
serialized form of any record yields the record itself, and extra unknown
fields present in a stored JSON object are dropped on read, not treated as an
error. -/
theorem roundtrip_tolerant_read_C6 :
    (∀ meta : YtdlpMetadata,
        _video_metadata_from_json (_video_metadata_to_json meta) = Except.ok meta)
    ∧ (∀ (meta : YtdlpMetadata) (extra : List (String × String)),
        (∀ kv ∈ extra, allowedFields.contains kv.1 = false) →
        _video_metadata_from_json (Content.jsonObj (recordFields meta ++ extra))
          = Except.ok meta) := by
  constructor
  · intro meta
    rfl
  · intro meta extra hx
    have hfil : (recordFields meta ++ extra).filter
          (fun kv => allowedFields.contains kv.1)
        = (recordFields meta).filter (fun kv => allowedFields.contains kv.1) := by
      rw [List.filter_append]
      have hext : extra.filter (fun kv => allowedFields.contains kv.1) = [] := by
        rw [List.filter_eq_nil_iff]
        intro a ha
        simpa using hx a ha
      rw [hext, List.append_nil]
    simp only [_video_metadata_from_json, hfil]
    rfl

/-- Closed instance of `roundtrip_tolerant_read_C6`: a hand-crafted file for
record A carrying the unknown field `web_url` reads back as exactly A. -/
theorem roundtrip_tolerant_read_C6_witness :
    _video_metadata_from_json
        (Content.jsonObj (recordFields metaA ++ [("web_url", "w")]))
      = Except.ok metaA :=
  roundtrip_tolerant_read_C6.2 metaA [("web_url", "w")] (by decide)

/-- C7 (confirmed).  In every crash state of `_atomic_write_text` — before the
temp file exists, with the temp file empty, partially written (arbitrary junk
`midC`), fully written, or after the atomic replace — the final path holds
either exactly its previous content (or no file) or exactly the complete new
text; a truncated file is never observable at the final path. -/
theorem atomic_write_crash_safety_C7
    (fs : List FileEntry) (path tmpName : String) (text midC : Content)
    (now : Nat) (h : tmpName ≠ path) :
    ∀ s ∈ atomicWriteStates fs path tmpName text midC now,
      fileContentAt s path = fileContentAt fs path
      ∨ fileContentAt s path = some text := by
  have hne : path ≠ tmpName := fun hc => h hc.symm
  intro s hs
  simp only [atomicWriteStates, List.mem_cons, List.not_mem_nil, or_false] at hs
  rcases hs with hs | hs | hs | hs | hs
  · subst hs; left; rfl
  · subst hs
    left
    exact fileContentAt_writeFile_ne hne
  · subst hs
    left
    rw [fileContentAt_writeFile_ne hne, fileContentAt_writeFile_ne hne]
  · subst hs
    left
    rw [fileContentAt_writeFile_ne hne, fileContentAt_writeFile_ne hne,
      fileContentAt_writeFile_ne hne]
  · subst hs
    right
    have h4 : fileContentAt
        (writeFile (writeFile (writeFile fs tmpName Content.notJson now)
          tmpName midC now) tmpName text now) tmpName = some text :=
      fileContentAt_writeFile_self
    unfold fileContentAt at h4
    rcases Option.map_eq_some'.mp h4 with ⟨f4, hf4, hc4⟩
    unfold renameReplace
    rw [hf4]
    rw [← hc4]
    exact fileContentAt_writeFile_self

/-- Closed instance of `atomic_write_crash_safety_C7` at the post-rename crash
state of writing A's record into an empty directory. -/
theorem atomic_write_crash_safety_C7_witness :
    fileContentAt
        (renameReplace
          (writeFile (writeFile (writeFile [] "tmpq1w2e3" Content.notJson 7)
            "tmpq1w2e3" Content.jsonNonObj 7) "tmpq1w2e3"
            (_video_metadata_to_json metaA) 7) "tmpq1w2e3" "A.info") "A.info"
      = fileContentAt [] "A.info"
    ∨ fileContentAt
        (renameReplace
          (writeFile (writeFile (writeFile [] "tmpq1w2e3" Content.notJson 7)
            "tmpq1w2e3" Content.jsonNonObj 7) "tmpq1w2e3"
            (_video_metadata_to_json metaA) 7) "tmpq1w2e3" "A.info") "A.info"
      = some (_video_metadata_to_json metaA) :=
  atomic_write_crash_safety_C7 [] "A.info" "tmpq1w2e3"
    (_video_metadata_to_json metaA) Content.jsonNonObj 7 (by decide)
    _ (by simp [atomicWriteStates])

/-- Entries the directory scan yields when it does not abort: one per
readable, parseable `.info` file, in directory order. -/
def goodEntries : List FileEntry → List (Nat × YouTubeSource)
  | [] => []
  | f :: rest =>
      if strEndsWith f.name ".info" then
        if f.readable then
          match _video_metadata_from_json f.content with
          | Except.ok m => (f.mtime, YouTubeSource.from_VideoMetadata m) :: goodEntries rest
          | Except.error _ => goodEntries rest
        else goodEntries rest
      else goodEntries rest

theorem strEndsWith_info (s : String) :
    strEndsWith (s ++ ".info") ".info" = true := by
  unfold strEndsWith
  rw [String.data_append, List.length_append, Nat.add_sub_cancel, List.drop_left]
  exact beq_self_eq_true _

theorem from_json_to_json (meta : YtdlpMetadata) :
    _video_metadata_from_json (_video_metadata_to_json meta) = Except.ok meta := rfl

theorem scanEntries_eq {l : List FileEntry}
    (h : ∀ f ∈ l, strEndsWith f.name ".info" = true → f.readable = true →
      ∃ m, _video_metadata_from_json f.content = Except.ok m) :
    scanEntries l = Except.ok (goodEntries l) := by
  induction l with
  | nil => rfl
  | cons f rest ih =>
      have hrest := ih (fun g hg => h g (List.mem_cons_of_mem f hg))
      cases he : strEndsWith f.name ".info" with
      | false => simp only [scanEntries, goodEntries, he]; exact hrest
      | true =>
          cases hr : f.readable with
          | false =>
              simp only [scanEntries, goodEntries, he, hr]
              simpa using hrest
          | true =>
              rcases h f (List.mem_cons_self f rest) he hr with ⟨m, hm⟩
              simp only [scanEntries, goodEntries, he, hr, hm, hrest]
              simp

theorem scanEntries_error_of_bad {l : List FileEntry} {f : FileEntry} {err : PyErr}
    (hmem : f ∈ l) (he : strEndsWith f.name ".info" = true)
    (hr : f.readable = true)
    (hbad : _video_metadata_from_json f.content = Except.error err) :
    ∃ e, scanEntries l = Except.error e := by
  induction l with
  | nil => cases hmem
  | cons g rest ih =>
      rcases List.mem_cons.mp hmem with hg | hg
      · subst hg
        exact ⟨err, by simp only [scanEntries, he, hr, hbad, if_true]⟩
      · cases hge : strEndsWith g.name ".info" with
        | false =>
            rcases ih hg with ⟨e2, he2⟩
            exact ⟨e2, by simp only [scanEntries, hge, if_false]; exact he2⟩
        | true =>
            cases hgr : g.readable with
            | false =>
                rcases ih hg with ⟨e2, he2⟩
                exact ⟨e2, by simp only [scanEntries, hge, hgr, if_true, if_false,
                  Bool.false_eq_true]; exact he2⟩
            | true =>
                cases hparse : _video_metadata_from_json g.content with
                | error e2 =>
                    exact ⟨e2, by simp only [scanEntries, hge, hgr, hparse, if_true]⟩
                | ok m =>
                    rcases ih hg with ⟨e2, he2⟩
                    refine ⟨e2, ?_⟩
                    simp only [scanEntries, hge, hgr, hparse, if_true, he2]

theorem scanEntries_append {l1 l2 : List FileEntry}
    {es1 es2 : List (Nat × YouTubeSource)}
    (h1 : scanEntries l1 = Except.ok es1)
    (h2 : scanEntries l2 = Except.ok es2) :
    scanEntries (l1 ++ l2) = Except.ok (es1 ++ es2) := by
  induction l1 generalizing es1 with
  | nil =>
      simp only [scanEntries] at h1
      cases h1
      simpa using h2
  | cons f rest ih =>
      rw [List.cons_append]
      cases he : strEndsWith f.name ".info" with
      | false =>
          simp only [scanEntries, he] at h1 ⊢
          simp only [Bool.false_eq_true, if_false] at h1 ⊢
          exact ih h1
      | true =>
          cases hr : f.readable with
          | false =>
              simp only [scanEntries, he, hr] at h1 ⊢
              simp only [Bool.false_eq_true, if_false, if_true] at h1 ⊢
              exact ih h1
          | true =>
              cases hp : _video_metadata_from_json f.content with
              | error e =>
                  simp only [scanEntries, he, hr, hp, if_true] at h1
                  exact Except.noConfusion h1
              | ok m =>
                  simp only [scanEntries, he, hr, hp, if_true] at h1 ⊢
                  cases hs : scanEntries rest with
                  | error e => rw [hs] at h1; cases h1
                  | ok es =>
                      rw [hs] at h1
                      cases h1
                      rw [ih hs]
                      simp

theorem hitLoop_skip {now : Nat} {vid : String} {st : CacheState}
    {l : List (Nat × YouTubeSource)} (h : ∀ e ∈ l, e.2.id ≠ vid) :
    hitLoop now vid st l = LoopOut.fallThrough st := by
  induction l with
  | nil => rfl
  | cons e rest ih =>
      have hne : (e.2.id == vid) = false :=
        beq_eq_false_iff_ne.mpr (h e (List.mem_cons_self e rest))
      simp only [hitLoop, hne, Bool.false_eq_true, if_false]
      exact ih (fun g hg => h g (List.mem_cons_of_mem e hg))

theorem hitLoop_found {now : Nat} {vid : String} {st : CacheState}
    {l : List (Nat × YouTubeSource)} {f : FileEntry}
    (hex : ∃ e ∈ l, e.2.id = vid)
    (hf : lookupFile st.fs (info_path_for vid) = some f) :
    hitLoop now vid st l = hitStep now vid st f := by
  induction l with
  | nil => rcases hex with ⟨e, he, _⟩; cases he
  | cons e rest ih =>
      by_cases hid : e.2.id = vid
      · have : (e.2.id == vid) = true := by simp [hid]
        simp only [hitLoop, this, if_true, hid, hf]
        rw [if_pos (beq_self_eq_true vid)]
      · have hne : (e.2.id == vid) = false := beq_eq_false_iff_ne.mpr hid
        simp only [hitLoop, hne, Bool.false_eq_true, if_false]
        rcases hex with ⟨e2, he2, hid2⟩
        rcases List.mem_cons.mp he2 with h2 | h2
        · exact absurd (h2 ▸ hid2) hid
        · exact ih ⟨e2, h2, hid2⟩

/-- Cache with one well-formed record file and one unreadable (but present)
file; the scan must skip the unreadable one. -/
def stateUnreadable : CacheState := CacheState.mk
  [FileEntry.mk "A.info" (_video_metadata_to_json metaA) 1 true,
   FileEntry.mk "u.info" Content.notJson 5 false]
  []

/-- C3 (amended).  The directory scan of `refresh_index` skips unreadable
entries (reads raising `OSError` are caught and the entry dropped): when every
readable `.info` file parses, the scan succeeds and yields exactly the
readable entries sorted newest first.  But a malformed record file is not
skipped: if any readable `.info` file fails to parse, the whole scan raises,
because the loop catches only `OSError` and the parse failures are
`ValueError`/`JSONDecodeError`/`TypeError`. -/
theorem refresh_index_skip_unreadable_C3 (st : CacheState) :
    ((∀ f ∈ st.fs, strEndsWith f.name ".info" = true → f.readable = true →
        ∃ m, _video_metadata_from_json f.content = Except.ok m) →
      refresh_index st
        = Except.ok (CacheState.mk st.fs (sortByMtimeDesc (goodEntries st.fs))))
    ∧ (∀ f ∈ st.fs, strEndsWith f.name ".info" = true → f.readable = true →
        ∀ err, _video_metadata_from_json f.content = Except.error err →
        ∃ e, refresh_index st = Except.error e) := by
  constructor
  · intro h
    unfold refresh_index
    rw [scanEntries_eq h]
  · intro f hmem he hr err hbad
    rcases scanEntries_error_of_bad hmem he hr hbad with ⟨e, hse⟩
    exact ⟨e, by unfold refresh_index; rw [hse]⟩

/-- Closed instance of `refresh_index_skip_unreadable_C3`: the unreadable
`u.info` is skipped and the scan still succeeds, while the readable malformed
`bad.info` of `stateMixed` aborts the whole scan. -/
theorem refresh_index_skip_unreadable_C3_witness :
    refresh_index stateUnreadable
      = Except.ok (CacheState.mk stateUnreadable.fs
          (sortByMtimeDesc (goodEntries stateUnreadable.fs)))
    ∧ ∃ e, refresh_index stateMixed = Except.error e :=
  ⟨(refresh_index_skip_unreadable_C3 stateUnreadable).1 (by
      intro f hf he hr
      rcases List.mem_cons.mp hf with h1 | h1
      · subst h1
        exact ⟨metaA, rfl⟩
      · rcases List.mem_cons.mp h1 with h2 | h2
        · rw [h2] at hr
          cases hr
        · cases h2),
   (refresh_index_skip_unreadable_C3 stateMixed).2
     (FileEntry.mk "bad.info" Content.notJson 2 true) (by decide) (by decide) rfl
     PyErr.jsonDecodeError rfl⟩

/-- Touching a name that no file bears leaves the directory unchanged. -/
theorem touchFile_eq_of_ne {l : List FileEntry} {n : String} {now : Nat}
    (h : ∀ f ∈ l, f.name ≠ n) : touchFile l n now = l := by
  unfold touchFile
  conv_rhs => rw [← List.map_id l]
  apply List.map_congr_left
  intro f hf
  simp [h f hf]

/-- Every file of a touched directory is a file of the original with the same
name, content and readability. -/
theorem mem_touchFile {l : List FileEntry} {n : String} {now : Nat}
    {x : FileEntry} (hx : x ∈ touchFile l n now) :
    ∃ y ∈ l, x.name = y.name ∧ x.content = y.content ∧ x.readable = y.readable := by
  rcases List.mem_map.mp hx with ⟨y, hy, hxy⟩
  by_cases h : y.name = n
  · rw [← hxy]
    exact ⟨y, hy, by simp [h]⟩
  · rw [← hxy]
    exact ⟨y, hy, by simp [h]⟩

/-- Looking up the touched name finds the touched entry. -/
theorem lookupFile_touchFile {l : List FileEntry} {n : String} {now : Nat}
    {f : FileEntry} (hf : lookupFile l n = some f) :
    lookupFile (touchFile l n now) n
      = some (FileEntry.mk f.name f.content now f.readable) := by
  unfold lookupFile touchFile
  rw [List.find?_map]
  have hcomp : ((fun (g : FileEntry) => g.name == n) ∘
      (fun g => if g.name == n then FileEntry.mk g.name g.content now g.readable else g))
      = (fun (g : FileEntry) => g.name == n) := by
    funext g
    by_cases h : g.name = n <;> simp [h]
  rw [hcomp]
  unfold lookupFile at hf
  rw [hf]
  have hname : f.name = n := by
    have := List.find?_some hf
    simpa using this
  simp [hname]

/-- Writing a fresh name appends a fresh readable entry. -/
theorem writeFile_of_not_mem {fs : List FileEntry} {name : String} {c : Content}
    {now : Nat} (h : ∀ f ∈ fs, f.name ≠ name) :
    writeFile fs name c now = fs ++ [FileEntry.mk name c now true] := by
  unfold writeFile
  have hnone : fs.find? (fun f => f.name == name) = none :=
    List.find?_eq_none.mpr (fun x hx => by simp [h x hx])
  rw [hnone]
  simp

/-- Looking up a freshly appended name finds the appended entry. -/
theorem lookupFile_append_new {fs : List FileEntry} {name : String} {c : Content}
    {now : Nat} (h : ∀ f ∈ fs, f.name ≠ name) :
    lookupFile (fs ++ [FileEntry.mk name c now true]) name
      = some (FileEntry.mk name c now true) := by
  unfold lookupFile
  rw [List.find?_append]
  have hnone : fs.find? (fun f => f.name == name) = none :=
    List.find?_eq_none.mpr (fun x hx => by simp [h x hx])
  rw [hnone]
  simp

/-- With the boolean `False` as `video_id`, `remove_stale_files_for_video_id`
is the identity on any directory without files named `False.*`: the purge
prefix is the string `"False."` and the index comparison `id != False` never
holds. -/
theorem remove_stale_bool_false {st : CacheState} {keep : Option String}
    (h : ∀ f ∈ st.fs, strStartsWith f.name "False." = false) :
    remove_stale_files_for_video_id st (PyVal.bool false) keep = st := by
  simp only [remove_stale_files_for_video_id]
  have h1 : st.fs.filter (fun f =>
      !(strStartsWith f.name (PyVal.format (PyVal.bool false) ++ ".")) ||
        (match keep with | some k => f.name == k | none => false)) = st.fs := by
    apply List.filter_eq_self.mpr
    intro f hf
    have h2 : strStartsWith f.name (PyVal.format (PyVal.bool false) ++ ".")
        = false := h f hf
    rw [h2]
    rfl
  have h3 : st.index.filter
      (fun e => !((PyVal.bool false).eqStr e.2.id)) = st.index :=
    List.filter_eq_self.mpr (fun e _ => rfl)
  rw [h1, h3]

/-- Storing a record whose id is already canonical: the walrus binds `video_id`
to `False`, so the stale purge touches nothing with prefix `"False."`, the
record file is freshly appended and the index entry prepended and re-sorted. -/
theorem cache_finish_fresh {now : Nat} {st : CacheState} {meta : YtdlpMetadata}
    (hclean : ∀ f ∈ st.fs, strStartsWith f.name "False." = false)
    (hfs : ∀ f ∈ st.fs, f.name ≠ info_path_for meta.video_id)
    (hidx : ∀ e ∈ st.index, e.2.id ≠ meta.video_id) :
    cache_finish now st (PyVal.bool false) meta meta.video_id
      = Except.ok (CacheState.mk
          (st.fs ++ [FileEntry.mk (info_path_for meta.video_id)
            (_video_metadata_to_json meta) now true])
          (sortByMtimeDesc ((now, YouTubeSource.from_VideoMetadata meta)
            :: st.index)),
        meta) := by
  have hrs : remove_stale_files_for_video_id st (PyVal.bool false)
      (some (info_path_for meta.video_id)) = st := remove_stale_bool_false hclean
  have hdrop : st.index.filter
      (fun e => !(e.2.id == meta.video_id)) = st.index := by
    apply List.filter_eq_self.mpr
    intro e he
    rw [beq_eq_false_iff_ne.mpr (hidx e he)]
    rfl
  simp only [cache_finish, hrs, writeFile_of_not_mem hfs, _prepend_to_index,
    YouTubeSource.from_VideoMetadata,
    @lookupFile_append_new st.fs (info_path_for meta.video_id)
      (_video_metadata_to_json meta) now hfs, hdrop]

/-- A lookup that hits a present, readable, parseable record file: the file is
touched, the index rebuilt from the touched directory, the stored record
returned, and the provider not invoked. -/
theorem get_hit_of_wf (E : String → Option String)
    (provider : String → Except PyErr YtdlpMetadata) (now : Nat)
    (st : CacheState) (url vid : String) (f : FileEntry) (meta : YtdlpMetadata)
    (hE : E url = some vid) (hvid : (vid == "") = false)
    (hex : ∃ e ∈ st.index, e.2.id = vid)
    (hf : lookupFile st.fs (info_path_for vid) = some f)
    (hr : f.readable = true)
    (hm : _video_metadata_from_json f.content = Except.ok meta)
    (hwfall : ∀ g ∈ st.fs, strEndsWith g.name ".info" = true → g.readable = true →
        ∃ m, _video_metadata_from_json g.content = Except.ok m) :
    get_video_metadata E provider now st url
      = (Except.ok meta,
         CacheState.mk (touchFile st.fs (info_path_for vid) now)
           (sortByMtimeDesc (goodEntries (touchFile st.fs (info_path_for vid) now))),
         0) := by
  have htw : ∀ g ∈ touchFile st.fs (info_path_for vid) now,
      strEndsWith g.name ".info" = true → g.readable = true →
      ∃ m, _video_metadata_from_json g.content = Except.ok m := by
    intro g hg he hr2
    rcases mem_touchFile hg with ⟨y, hy, hn, hc, hrd⟩
    rw [hn] at he
    rw [hrd] at hr2
    rw [hc]
    exact hwfall y hy he hr2
  have hrefresh : refresh_index (CacheState.mk
      (touchFile st.fs (info_path_for vid) now) st.index)
      = Except.ok (CacheState.mk (touchFile st.fs (info_path_for vid) now)
          (sortByMtimeDesc (goodEntries (touchFile st.fs (info_path_for vid) now)))) := by
    unfold refresh_index
    rw [scanEntries_eq htw]
  have hstep : hitStep now vid st f = LoopOut.hit meta
      (CacheState.mk (touchFile st.fs (info_path_for vid) now)
        (sortByMtimeDesc (goodEntries (touchFile st.fs (info_path_for vid) now)))) := by
    simp only [hitStep, hrefresh, hr, if_true, hm]
  simp only [get_video_metadata, hE, pyFalsy, hvid, Bool.false_eq_true, if_false,
    Option.getD_some, hitLoop_found hex hf, hstep]

/-- C4 (confirmed).  Looking up a reference absent from a well-formed cache
invokes the provider exactly once and appends exactly one record file (the
id's `.info` file, all other files untouched); an immediate second lookup of
the same reference invokes the provider zero times and returns the persisted
record.  Well-formed means: every readable `.info` file parses, and no file
carries the id's name or the `False.` artifact prefix. -/
theorem miss_then_hit_C4
    (E : String → Option String) (provider : String → Except PyErr YtdlpMetadata)
    (st : CacheState) (url vid : String) (meta : YtdlpMetadata) (t1 t2 : Nat)
    (hE : E url = some vid) (hvid : (vid == "") = false)
    (hidx : ∀ e ∈ st.index, e.2.id ≠ vid)
    (hfs : ∀ f ∈ st.fs, f.name ≠ info_path_for vid)
    (hclean : ∀ f ∈ st.fs, strStartsWith f.name "False." = false)
    (hwf : ∀ f ∈ st.fs, strEndsWith f.name ".info" = true → f.readable = true →
        ∃ m, _video_metadata_from_json f.content = Except.ok m)
    (hprov : provider url = Except.ok meta)
    (hmeta : meta.video_id = vid) (hcanon : E vid = some vid) :
    ∃ stA : CacheState,
      get_video_metadata E provider t1 st url = (Except.ok meta, stA, 1)
      ∧ stA.fs = st.fs ++ [FileEntry.mk (info_path_for vid)
          (_video_metadata_to_json meta) t1 true]
      ∧ (get_video_metadata E provider t2 stA url).1 = Except.ok meta
      ∧ (get_video_metadata E provider t2 stA url).2.2 = 0 := by
  subst hmeta
  refine ⟨CacheState.mk
      (st.fs ++ [FileEntry.mk (info_path_for meta.video_id)
        (_video_metadata_to_json meta) t1 true])
      (sortByMtimeDesc ((t1, YouTubeSource.from_VideoMetadata meta) :: st.index)),
    ?_, rfl, ?_, ?_⟩
  case _ =>
    simp only [get_video_metadata, hE, pyFalsy, hvid, Bool.false_eq_true, if_false,
      Option.getD_some, hitLoop_skip hidx, _fetch_yt_dlp_metadata, hprov]
    unfold cache_VideoMetadata
    rw [if_pos hcanon]
    simp only [cache_finish_fresh hclean hfs hidx]
  all_goals
    have hf2 : lookupFile
        (st.fs ++ [FileEntry.mk (info_path_for meta.video_id)
          (_video_metadata_to_json meta) t1 true]) (info_path_for meta.video_id)
        = some (FileEntry.mk (info_path_for meta.video_id)
            (_video_metadata_to_json meta) t1 true) :=
      @lookupFile_append_new st.fs (info_path_for meta.video_id)
        (_video_metadata_to_json meta) t1 hfs
    have hexx : ∃ e ∈ sortByMtimeDesc
        ((t1, YouTubeSource.from_VideoMetadata meta) :: st.index),
        e.2.id = meta.video_id :=
      ⟨(t1, YouTubeSource.from_VideoMetadata meta),
        mem_sortByMtimeDesc.mpr (List.mem_cons_self _ _), rfl⟩
    have hwfall : ∀ g ∈ st.fs ++ [FileEntry.mk (info_path_for meta.video_id)
          (_video_metadata_to_json meta) t1 true],
        strEndsWith g.name ".info" = true → g.readable = true →
        ∃ m, _video_metadata_from_json g.content = Except.ok m := by
      intro g hg he hr2
      rcases List.mem_append.mp hg with hg | hg
      · exact hwf g hg he hr2
      · rcases List.mem_cons.mp hg with hg | hg
        · rw [hg]
          exact ⟨meta, from_json_to_json meta⟩
        · cases hg
    have hsecond := get_hit_of_wf E provider t2
      (CacheState.mk
        (st.fs ++ [FileEntry.mk (info_path_for meta.video_id)
          (_video_metadata_to_json meta) t1 true])
        (sortByMtimeDesc ((t1, YouTubeSource.from_VideoMetadata meta) :: st.index)))
      url meta.video_id
      (FileEntry.mk (info_path_for meta.video_id)
        (_video_metadata_to_json meta) t1 true)
      meta hE hvid hexx hf2 rfl (from_json_to_json meta) hwfall
    rw [hsecond]

/-- Closed instance of `miss_then_hit_C4`: first lookup of `uA` in the empty
cache fetches and persists A's record, the second lookup serves it from disk
with no provider call. -/
theorem miss_then_hit_C4_witness :
    ∃ stA : CacheState,
      get_video_metadata exResolver (fun _ => Except.ok metaA) 1
          (CacheState.mk [] []) "uA" = (Except.ok metaA, stA, 1)
      ∧ stA.fs = [] ++ [FileEntry.mk (info_path_for "A")
          (_video_metadata_to_json metaA) 1 true]
      ∧ (get_video_metadata exResolver (fun _ => Except.ok metaA) 2 stA "uA").1
          = Except.ok metaA
      ∧ (get_video_metadata exResolver (fun _ => Except.ok metaA) 2 stA "uA").2.2
          = 0 :=
  miss_then_hit_C4 exResolver (fun _ => Except.ok metaA) (CacheState.mk [] [])
    "uA" "A" metaA 1 2 rfl rfl (by simp) (by simp) (by simp) (by simp) rfl rfl rfl

/-- Storing a record with a canonical id into an arbitrary directory free of
`False.*` names: some state comes out, and the id's record file ends up
holding exactly the serialized record. -/
theorem cache_finish_any {now : Nat} {st : CacheState} {meta : YtdlpMetadata}
    (hclean : ∀ f ∈ st.fs, strStartsWith f.name "False." = false) :
    ∃ st3 : CacheState,
      cache_finish now st (PyVal.bool false) meta meta.video_id
        = Except.ok (st3, meta)
      ∧ fileContentAt st3.fs (info_path_for meta.video_id)
          = some (_video_metadata_to_json meta) := by
  have hrs : remove_stale_files_for_video_id st (PyVal.bool false)
      (some (info_path_for meta.video_id)) = st := remove_stale_bool_false hclean
  rcases Option.map_eq_some'.mp (@fileContentAt_writeFile_self st.fs
      (info_path_for meta.video_id) (_video_metadata_to_json meta) now)
    with ⟨f2, hf2, hc2⟩
  refine ⟨CacheState.mk
      (writeFile st.fs (info_path_for meta.video_id)
        (_video_metadata_to_json meta) now)
      (sortByMtimeDesc ((f2.mtime, YouTubeSource.from_VideoMetadata meta)
        :: st.index.filter (fun e => !(e.2.id == meta.video_id)))), ?_, ?_⟩
  · simp only [cache_finish, hrs, _prepend_to_index,
      YouTubeSource.from_VideoMetadata, hf2]
  · exact @fileContentAt_writeFile_self st.fs (info_path_for meta.video_id)
      (_video_metadata_to_json meta) now

/-- C2 (amended).  A lookup for a reference resolving to an id whose on-disk
record file is present and readable but malformed does not raise: the parse
failure (surfacing through the index rebuild) is caught inside
`get_video_metadata`, which logs it and falls back to the provider — one
provider invocation — overwrites the corrupt file with the fresh record and
returns the fresh record.  (The low-level `_video_metadata_from_json` does
raise on a malformed encoding, but `get_video_metadata` swallows it.) -/
theorem corrupt_record_refetch_C2
    (E : String → Option String) (provider : String → Except PyErr YtdlpMetadata)
    (st : CacheState) (url vid : String) (f : FileEntry) (err : PyErr)
    (fresh : YtdlpMetadata) (now : Nat)
    (hE : E url = some vid) (hvid : (vid == "") = false)
    (hex : ∃ e ∈ st.index, e.2.id = vid)
    (hf : lookupFile st.fs (info_path_for vid) = some f)
    (hr : f.readable = true)
    (hbad : _video_metadata_from_json f.content = Except.error err)
    (hprov : provider url = Except.ok fresh)
    (hfresh : fresh.video_id = vid) (hcanon : E vid = some vid)
    (hclean : ∀ g ∈ st.fs, strStartsWith g.name "False." = false) :
    ∃ stA : CacheState,
      get_video_metadata E provider now st url = (Except.ok fresh, stA, 1)
      ∧ fileContentAt stA.fs (info_path_for vid)
          = some (_video_metadata_to_json fresh) := by
  subst hfresh
  have hmemf : f ∈ st.fs := List.mem_of_find?_eq_some hf
  have hname : f.name = info_path_for fresh.video_id := by
    have := List.find?_some hf
    simpa using this
  have htouchmem : FileEntry.mk f.name f.content now f.readable
      ∈ touchFile st.fs (info_path_for fresh.video_id) now := by
    have hmem2 := List.mem_map_of_mem
      (fun g => if g.name == info_path_for fresh.video_id then
        FileEntry.mk g.name g.content now g.readable else g) hmemf
    have hcond : (f.name == info_path_for fresh.video_id) = true := by
      simp [hname]
    simpa [touchFile, hcond] using hmem2
  have hends : strEndsWith (FileEntry.mk f.name f.content now f.readable).name
      ".info" = true := by
    show strEndsWith f.name ".info" = true
    rw [hname]
    exact strEndsWith_info fresh.video_id
  rcases scanEntries_error_of_bad htouchmem hends hr hbad with ⟨e2, hscan2⟩
  have hrefresh : refresh_index (CacheState.mk
      (touchFile st.fs (info_path_for fresh.video_id) now) st.index)
      = Except.error e2 := by
    unfold refresh_index
    rw [hscan2]
  have hstep : hitStep now fresh.video_id st f = LoopOut.fallThrough
      (CacheState.mk (touchFile st.fs (info_path_for fresh.video_id) now)
        st.index) := by
    simp only [hitStep, hrefresh]
  have hclean1 : ∀ g ∈ touchFile st.fs (info_path_for fresh.video_id) now,
      strStartsWith g.name "False." = false := by
    intro g hg
    rcases mem_touchFile hg with ⟨y, hy, hn, _, _⟩
    rw [hn]
    exact hclean y hy
  rcases @cache_finish_any now
      (CacheState.mk (touchFile st.fs (info_path_for fresh.video_id) now)
        st.index) fresh hclean1
    with ⟨st3, hcf, hcontent⟩
  refine ⟨st3, ?_, hcontent⟩
  simp only [get_video_metadata, hE, pyFalsy, hvid, Bool.false_eq_true, if_false,
    Option.getD_some, hitLoop_found hex hf, hstep, _fetch_yt_dlp_metadata, hprov]
  unfold cache_VideoMetadata
  rw [if_pos hcanon]
  simp only [hcf]

/-- Closed instance of `corrupt_record_refetch_C2`: with `v1.info` holding
invalid JSON, the lookup of `u1` returns the provider's fresh record, one
provider call, and the file now holds the fresh record. -/
theorem corrupt_record_refetch_C2_witness :
    ∃ stA : CacheState,
      get_video_metadata exResolver (fun _ => Except.ok metaV1fresh) 5
          stateCorrupt "u1" = (Except.ok metaV1fresh, stA, 1)
      ∧ fileContentAt stA.fs (info_path_for "v1")
          = some (_video_metadata_to_json metaV1fresh) :=
  corrupt_record_refetch_C2 exResolver (fun _ => Except.ok metaV1fresh)
    stateCorrupt "u1" "v1" (FileEntry.mk "v1.info" Content.notJson 1 true)
    PyErr.jsonDecodeError metaV1fresh 5 rfl rfl
    ⟨(1, srcOf metaV1old), List.mem_cons_self _ _, rfl⟩ rfl rfl rfl rfl rfl rfl
    (by decide)

end YtApp
